import Mathlib

/-!
Verification development for the CPU-bound task offload subsystem of the
repository: the worker compute function (`fib`), the dispatch host
(`FibonacciWorkerHost`: `run`, message correlation, shutdown), and the
caller-facing fibonacci endpoint.

The embedding follows the TypeScript source:
  * `src/fibonacci/fibonacci.worker.ts` — `fib`, `module.exports`;
  * `src/fibonacci/fibonacci-worker.host.ts` — `run`, the RxJS
    message-correlation pipeline, `onApplicationShutdown`;
  * `src/coffees/coffees.controller.ts` (`FibonacciController`) — the
    endpoint with default query parameter `n = 10`.
JS numbers are modelled as `Int` (all inputs and results in play are
integral).
-/

/-- The worker compute function, from `fibonacci.worker.ts`:
`function fib(n) { if (n < 2) { return n; } return fib(n - 1) + fib(n - 2); }`.
JS numbers are modelled as `Int`; negative inputs hit the `n < 2` branch. -/
def fib (n : Int) : Int :=
  if n < 2 then n
  else fib (n - 1) + fib (n - 2)
termination_by n.toNat
decreasing_by
  · omega
  · omega

/-- Unfolding equation for `fib`, mirroring the source text. -/
theorem fib_def (n : Int) :
    fib n = if n < 2 then n else fib (n - 1) + fib (n - 2) := by
  rw [fib]

theorem fib_zero : fib 0 = 0 := by rw [fib_def]; norm_num

theorem fib_one : fib 1 = 1 := by rw [fib_def]; norm_num

theorem fib_two : fib 2 = 1 := by rw [fib_def]; norm_num [fib_one, fib_zero]

theorem fib_three : fib 3 = 2 := by rw [fib_def]; norm_num [fib_two, fib_one]

theorem fib_four : fib 4 = 3 := by rw [fib_def]; norm_num [fib_three, fib_two]

theorem fib_five : fib 5 = 5 := by rw [fib_def]; norm_num [fib_four, fib_three]

theorem fib_six : fib 6 = 8 := by rw [fib_def]; norm_num [fib_five, fib_four]

theorem fib_seven : fib 7 = 13 := by rw [fib_def]; norm_num [fib_six, fib_five]

theorem fib_eight : fib 8 = 21 := by rw [fib_def]; norm_num [fib_seven, fib_six]

theorem fib_nine : fib 9 = 34 := by rw [fib_def]; norm_num [fib_eight, fib_seven]

theorem fib_ten : fib 10 = 55 := by rw [fib_def]; norm_num [fib_nine, fib_eight]

/-- The worker module's export, from `fibonacci.worker.ts`:
`module.exports = (n) => { return fib(n); }`. -/
def workerExports (n : Int) : Int := fib n

/-- Fuel-indexed evaluator for the recursion of `fib`: one unit of fuel per
recursive unfolding, `none` when fuel runs out.  Operational model used to
express that the source recursion terminates on every integer input. -/
def fibFuel : Nat → Int → Option Int
  | 0, _ => none
  | f + 1, n =>
    if n < 2 then some n
    else
      match fibFuel f (n - 1), fibFuel f (n - 2) with
      | some a, some b => some (a + b)
      | _, _ => none

/-- With fuel above `n.toNat`, the fuel evaluator computes `fib`. -/
theorem fibFuel_eq_fib (f : Nat) (n : Int) (h : n.toNat < f) :
    fibFuel f n = some (fib n) := by
  induction f generalizing n with
  | zero => omega
  | succ k ih =>
    rw [fibFuel, fib_def]
    by_cases h2 : n < 2
    · simp [h2]
    · have h1 : (n - 1).toNat < k := by omega
      have h2' : (n - 2).toNat < k := by omega
      simp [h2, ih _ h1, ih _ h2']

/-- A message emitted by the worker, `{ id, result }`
(`fromEvent(this.worker, 'message')` is typed `{ id: string; result: number }`
in `fibonacci-worker.host.ts`). -/
structure WorkerMsg where
  id : String
  result : Int
deriving DecidableEq, Repr

/-- State of one caller-facing completion-handle (the promise returned by
`firstValueFrom`). -/
inductive HandleState where
  | pending
  | resolved (v : Int)
  | rejected (e : String)
deriving DecidableEq, Repr

/-- One active `firstValueFrom(message$.pipe(filter(({id}) => id === uniqueId), map(({result}) => result)))`
pipeline: the `uniqueId` captured by the filter closure together with the
state of the promise it feeds.  A handle that is no longer `pending` has
unsubscribed and receives no further events. -/
structure Subscription where
  id : String
  state : HandleState
deriving DecidableEq, Repr

/-- State of the `FibonacciWorkerHost`: the active subscriptions on
`message$` (one per `run` call, in call order), the `{n, id}` task messages
posted to the worker, and whether the worker thread is alive. -/
structure HostState where
  subs : List Subscription
  sent : List (String × Int)
  workerAlive : Bool
deriving DecidableEq, Repr

/-- Host state right after `onApplicationBootstrap`: worker created, no
messages, no subscriptions. -/
def initialState : HostState := { subs := [], sent := [], workerAlive := true }

/-- `run(n)` from `fibonacci-worker.host.ts`: generate `uniqueId`, post
`{n, id: uniqueId}` to the worker, then await the first `message$` event
whose `id` equals `uniqueId`.  The generated id is made explicit
(`randomUUID` modelled as an arbitrary supplied token). -/
def run (st : HostState) (uniqueId : String) (n : Int) : HostState :=
  { st with
    sent := st.sent ++ [(uniqueId, n)]
    subs := st.subs ++ [{ id := uniqueId, state := HandleState.pending }] }

/-- Issue a list of `run` calls (id, input) in order. -/
def runAll (st : HostState) (calls : List (String × Int)) : HostState :=
  calls.foldl (fun s c => run s c.1 c.2) st

/-- The observable side-effects of one `run` call, in the order the source
performs them: line 34 `this.worker.postMessage({ n, id: uniqueId })`, then
lines 35-40 `firstValueFrom(...)`, which subscribes to `message$`. -/
inductive RunEvent where
  | postMessage (id : String) (n : Int)
  | subscribe (id : String)
deriving DecidableEq, Repr

/-- Event trace of one execution of `run`, from the statement order of
`fibonacci-worker.host.ts` lines 32-41. -/
def runEvents (uniqueId : String) (n : Int) : List RunEvent :=
  [RunEvent.postMessage uniqueId n, RunEvent.subscribe uniqueId]

/-- Effect of one worker message on one subscription: a pending pipeline
whose `filter` matches (`id === uniqueId`) resolves with `result` and
unsubscribes; a settled handle has already unsubscribed, so the message
leaves it unchanged; a non-matching message is filtered out. -/
def deliver (msg : WorkerMsg) (s : Subscription) : Subscription :=
  match s.state with
  | HandleState.pending =>
    if msg.id = s.id then { s with state := HandleState.resolved msg.result } else s
  | _ => s

/-- The host receives one `message` event from the worker: every active
subscription on `message$` sees it. -/
def onMessage (st : HostState) (msg : WorkerMsg) : HostState :=
  { st with subs := st.subs.map (deliver msg) }

/-- The host receives a sequence of `message` events, in arrival order. -/
def processReplies (st : HostState) (msgs : List WorkerMsg) : HostState :=
  msgs.foldl onMessage st

/-- `onApplicationShutdown` from `fibonacci-worker.host.ts`:
`await this.worker.terminate()` — the worker thread is terminated and
nothing else is touched. -/
def onApplicationShutdown (st : HostState) : HostState :=
  { st with workerAlive := false }

/-- The worker's reply to one `{n, id}` task, from `fibonacci.worker.ts`:
`parentPort?.postMessage({ result: fib(n), id })` — same id, result `fib n`. -/
def workerReplyFor (c : String × Int) : WorkerMsg :=
  { id := c.1, result := fib c.2 }

/-- A whole worker run: the replies the worker produces for a task sequence,
one reply per task.  The worker module holds no mutable state besides the
pure functions `fib` and `module.exports`. -/
def workerProcess (tasks : List (String × Int)) : List WorkerMsg :=
  tasks.map workerReplyFor

/-- `Piscina.run(n)` as wired in `FibonacciController`: dispatch `n` to the
worker module's export. -/
def piscinaRun (n : Int) : Int := workerExports n

/-- The `GET /fibonacci` handler, from `coffees.controller.ts`:
`fibonacci(@Query('n') n: number = 10) { return this.fibonacciWorker.run(n); }`.
An absent query parameter is `none`; the default parameter then sets `n = 10`. -/
def fibonacciEndpoint : Option Int → Int
  | none => piscinaRun 10
  | some v => piscinaRun v

/-- The property C5 asserts of one execution of `run`: some occurrence of
the subscription event strictly precedes some occurrence of the
post-message event in the trace. -/
def registersBeforeSend (uniqueId : String) (n : Int) : Prop :=
  ∃ i : Fin (runEvents uniqueId n).length, ∃ j : Fin (runEvents uniqueId n).length,
    i.val < j.val ∧
    (runEvents uniqueId n).get i = RunEvent.subscribe uniqueId ∧
    (runEvents uniqueId n).get j = RunEvent.postMessage uniqueId n

/-- The order `run` actually performs: the post-message event strictly
precedes the subscription event in the trace. -/
def sendsBeforeRegister (uniqueId : String) (n : Int) : Prop :=
  ∃ i : Fin (runEvents uniqueId n).length, ∃ j : Fin (runEvents uniqueId n).length,
    i.val < j.val ∧
    (runEvents uniqueId n).get i = RunEvent.postMessage uniqueId n ∧
    (runEvents uniqueId n).get j = RunEvent.subscribe uniqueId

/-- Fold the effect of a message sequence over a single subscription. -/
def deliverAll (msgs : List WorkerMsg) (s : Subscription) : Subscription :=
  msgs.foldl (fun acc m => deliver m acc) s

theorem deliverAll_cons (m : WorkerMsg) (ms : List WorkerMsg) (s : Subscription) :
    deliverAll (m :: ms) s = deliverAll ms (deliver m s) := rfl

/-- A settled handle has unsubscribed: a message leaves it unchanged. -/
theorem deliver_not_pending (msg : WorkerMsg) (s : Subscription)
    (h : s.state ≠ HandleState.pending) : deliver msg s = s := by
  obtain ⟨i, st⟩ := s
  cases st with
  | pending => exact absurd rfl h
  | resolved v => rfl
  | rejected e => rfl

/-- A matching message resolves a pending handle with its `result`. -/
theorem deliver_match (msg : WorkerMsg) (s : Subscription)
    (hp : s.state = HandleState.pending) (h : msg.id = s.id) :
    deliver msg s = { id := s.id, state := HandleState.resolved msg.result } := by
  obtain ⟨i, st⟩ := s
  cases st <;> simp_all [deliver]

/-- A non-matching message is filtered out of the pipeline. -/
theorem deliver_miss (msg : WorkerMsg) (s : Subscription) (h : msg.id ≠ s.id) :
    deliver msg s = s := by
  obtain ⟨i, st⟩ := s
  cases st <;> simp_all [deliver]

/-- No message sequence can touch a settled handle. -/
theorem deliverAll_not_pending (msgs : List WorkerMsg) (s : Subscription)
    (h : s.state ≠ HandleState.pending) : deliverAll msgs s = s := by
  induction msgs with
  | nil => rfl
  | cons m ms ih => rw [deliverAll_cons, deliver_not_pending m s h]; exact ih

/-- Message processing acts independently on each subscription. -/
theorem processReplies_subs (msgs : List WorkerMsg) (st : HostState) :
    (processReplies st msgs).subs = st.subs.map (deliverAll msgs) := by
  induction msgs generalizing st with
  | nil =>
    have h0 : st.subs.map (deliverAll []) = st.subs.map id :=
      List.map_congr_left fun s _ => rfl
    simp [processReplies, h0]
  | cons m ms ih =>
    have h : processReplies st (m :: ms) = processReplies (onMessage st m) ms := rfl
    rw [h, ih]
    simp only [onMessage, List.map_map]
    exact List.map_congr_left fun s _ => rfl

/-- A pending handle, fed a message sequence in which every matching message
carries `v` and at least one matching message occurs, ends resolved with `v`. -/
theorem deliverAll_resolves (msgs : List WorkerMsg) (s : Subscription) (v : Int)
    (hp : s.state = HandleState.pending)
    (hall : ∀ m ∈ msgs, m.id = s.id → m.result = v)
    (hex : ∃ m ∈ msgs, m.id = s.id) :
    deliverAll msgs s = { id := s.id, state := HandleState.resolved v } := by
  induction msgs with
  | nil => simp at hex
  | cons m ms ih =>
    by_cases hm : m.id = s.id
    · have hv : m.result = v := hall m (by simp) hm
      rw [deliverAll_cons, deliver_match m s hp hm, hv]
      exact deliverAll_not_pending ms _ (by simp)
    · rw [deliverAll_cons, deliver_miss m s hm]
      apply ih
      · exact fun m' hm' h' => hall m' (List.mem_cons_of_mem m hm') h'
      · obtain ⟨m', hm', h'⟩ := hex
        rcases List.mem_cons.mp hm' with h | h
        · exact absurd (h ▸ h') hm
        · exact ⟨m', h, h'⟩

/-- Issuing calls appends one pending subscription per call, in call order. -/
theorem runAll_subs (st : HostState) (calls : List (String × Int)) :
    (runAll st calls).subs
      = st.subs ++ calls.map (fun c => { id := c.1, state := HandleState.pending }) := by
  induction calls generalizing st with
  | nil => simp [runAll]
  | cons c cs ih =>
    have h : runAll st (c :: cs) = runAll (run st c.1 c.2) cs := rfl
    rw [h, ih]
    simp [run]

/-- Claim C1: for all concurrently issued calls `run(a)...run(z)` on the
dispatch host (distinct generated ids), each call's completion-handle ends
resolved with `fib` applied to that call's own input, for every completion
order of the worker's replies; no call receives the result of a different
call's task. -/
theorem correlation_correct (calls : List (String × Int)) (msgs : List WorkerMsg)
    (hids : (calls.map Prod.fst).Nodup)
    (hperm : msgs.Perm (workerProcess calls)) :
    (processReplies (runAll initialState calls) msgs).subs
      = calls.map (fun c => { id := c.1, state := HandleState.resolved (fib c.2) }) := by
  rw [processReplies_subs, runAll_subs]
  simp only [initialState, List.nil_append, List.map_map]
  apply List.map_congr_left
  intro c hc
  show deliverAll msgs { id := c.1, state := HandleState.pending }
      = { id := c.1, state := HandleState.resolved (fib c.2) }
  apply deliverAll_resolves
  · rfl
  · intro m hm hid
    have hm' : m ∈ workerProcess calls := hperm.mem_iff.mp hm
    simp only [workerProcess, List.mem_map] at hm'
    obtain ⟨c', hc', hmc⟩ := hm'
    have hid' : c'.1 = c.1 := by
      have := congrArg WorkerMsg.id hmc
      simp [workerReplyFor] at this
      rw [this]
      simpa using hid
    have hcc : c' = c := List.inj_on_of_nodup_map hids hc' hc hid'
    have := congrArg WorkerMsg.result hmc
    simp [workerReplyFor, hcc] at this
    exact this.symm
  · refine ⟨workerReplyFor c, hperm.mem_iff.mpr ?_, rfl⟩
    exact List.mem_map_of_mem workerReplyFor hc

/-- Concrete instance of `correlation_correct`: two calls with distinct ids,
replies arriving in the reverse of submission order, each handle resolved
with the result of its own input. -/
theorem correlation_correct_witness :
    (processReplies (runAll initialState [("a", 3), ("b", 4)])
        [{ id := "b", result := 3 }, { id := "a", result := 2 }]).subs
      = [{ id := "a", state := HandleState.resolved 2 },
         { id := "b", state := HandleState.resolved 3 }] := by
  have hperm : ([{ id := "b", result := 3 }, { id := "a", result := 2 }] :
      List WorkerMsg).Perm (workerProcess [("a", 3), ("b", 4)]) := by
    simp only [workerProcess, List.map_cons, List.map_nil, workerReplyFor,
      fib_three, fib_four]
    decide
  have h := correlation_correct [("a", 3), ("b", 4)]
      [{ id := "b", result := 3 }, { id := "a", result := 2 }] (by decide) hperm
  rw [h]
  simp [fib_three, fib_four]

/-- The claim C2 as stated fails on the code: shutting the host down with
one `run` call still pending leaves that call's completion-handle pending —
it is neither resolved nor rejected, in particular not rejected with a
"host shutting down" error. -/
theorem shutdown_counterexample :
    ((onApplicationShutdown (run initialState "a" 3)).subs.map Subscription.state
        = [HandleState.pending]) ∧
    HandleState.pending ≠ HandleState.rejected "host shutting down" := by
  decide

/-- Claim C2 amended: `onApplicationShutdown` only terminates the worker
thread; every completion-handle keeps exactly the state it had, so every
call still pending at shutdown stays pending — it is never rejected with a
"host shutting down" error, and such a caller hangs. -/
theorem shutdown_leaves_handles (st : HostState) :
    (onApplicationShutdown st).subs = st.subs ∧
    (onApplicationShutdown st).workerAlive = false :=
  ⟨rfl, rfl⟩

/-- Claim C3: a reply whose id matches no subscription (an orphan or unknown
id) resolves no pending call and leaves the host state — in particular the
state of every completion-handle — unchanged; the step is total, so the host
does not crash. -/
theorem orphan_reply_noop (st : HostState) (msg : WorkerMsg)
    (h : ∀ s ∈ st.subs, s.id ≠ msg.id) :
    onMessage st msg = st := by
  have h2 : st.subs.map (deliver msg) = st.subs.map id :=
    List.map_congr_left fun s hs => deliver_miss msg s (Ne.symm (h s hs))
  simp only [List.map_id] at h2
  simp [onMessage, h2]

/-- Instance of `orphan_reply_noop`: a reply with unknown id `"zzz"` leaves a
host with one pending call untouched. -/
theorem orphan_reply_noop_witness :
    onMessage
        { subs := [{ id := "a", state := HandleState.pending }],
          sent := [("a", 3)], workerAlive := true }
        { id := "zzz", result := 99 }
      = { subs := [{ id := "a", state := HandleState.pending }],
          sent := [("a", 3)], workerAlive := true } :=
  orphan_reply_noop _ _ (by decide)

/-- Claim C4: at-most-once resolution — the first reply carrying a pending
handle's id resolves it with that reply's result, and any later reply
(duplicates with the same id included) is a no-op on that handle: it is
never resolved or rejected a second time. -/
theorem at_most_once (s : Subscription) (m1 : WorkerMsg) (msgs : List WorkerMsg)
    (hp : s.state = HandleState.pending) (hm : m1.id = s.id) :
    deliverAll (m1 :: msgs) s
      = { id := s.id, state := HandleState.resolved m1.result } := by
  rw [deliverAll_cons, deliver_match m1 s hp hm]
  exact deliverAll_not_pending msgs _ (by simp)

/-- Instance of `at_most_once`: a duplicate reply with the same id and a
different payload does not re-resolve the handle. -/
theorem at_most_once_witness :
    deliverAll [{ id := "a", result := 7 }, { id := "a", result := 9 }]
        { id := "a", state := HandleState.pending }
      = { id := "a", state := HandleState.resolved 7 } :=
  at_most_once { id := "a", state := HandleState.pending }
    { id := "a", result := 7 } [{ id := "a", result := 9 }] rfl rfl

/-- The claim C5 as stated fails on the code: in the event trace of
`run("a", 3)` the subscription (registration) event does not precede the
post-message event — the source posts the task first (line 34) and only then
subscribes via `firstValueFrom` (lines 35-40). -/
theorem register_order_counterexample : ¬ registersBeforeSend "a" 3 := by
  unfold registersBeforeSend
  decide

/-- Claim C5 amended: in every execution of `run`, the host posts the
`{n, id}` task message to the worker strictly before it registers the
pending completion (the `firstValueFrom` subscription on `message$`). -/
theorem send_then_register (uniqueId : String) (n : Int) :
    sendsBeforeRegister uniqueId n :=
  ⟨⟨0, by simp [runEvents]⟩, ⟨1, by simp [runEvents]⟩, Nat.zero_lt_one, rfl, rfl⟩

/-- Claim C6: the compute operation satisfies the fixed reference values of
the Fibonacci function: `compute(10) = 55`, `compute(0) = 0`,
`compute(1) = 1`. -/
theorem compute_reference_values :
    workerExports 10 = 55 ∧ workerExports 0 = 0 ∧ workerExports 1 = 1 :=
  ⟨fib_ten, fib_zero, fib_one⟩

/-- Claim C7: the worker compute function is pure and deterministic — in any
two worker runs over any task sequences, tasks carrying equal inputs (at any
positions) yield replies with equal results, independent of any retained
cross-task state. -/
theorem worker_pure (ts1 ts2 : List (String × Int)) (i j : Nat)
    (t1 t2 : String × Int)
    (h1 : ts1[i]? = some t1) (h2 : ts2[j]? = some t2)
    (heq : t1.2 = t2.2) :
    ((workerProcess ts1)[i]?).map WorkerMsg.result
      = ((workerProcess ts2)[j]?).map WorkerMsg.result := by
  simp [workerProcess, List.getElem?_map, h1, h2, workerReplyFor, heq]

/-- Instance of `worker_pure`: the same input `5` at different positions of
two different runs yields the same result. -/
theorem worker_pure_witness :
    ((workerProcess [("a", 5)])[0]?).map WorkerMsg.result
      = ((workerProcess [("b", 9), ("c", 5)])[1]?).map WorkerMsg.result :=
  worker_pure [("a", 5)] [("b", 9), ("c", 5)] 0 1 ("a", 5) ("c", 5) rfl rfl rfl

/-- Claim C8: the recursion of `fib` terminates on every integer input,
zero and negatives included — some finite fuel makes the fuel-indexed
evaluator of the source recursion return the value `fib n`, because every
recursive chain reaches the `n < 2` base case. -/
theorem fib_terminates (n : Int) : ∃ f : Nat, fibFuel f n = some (fib n) :=
  ⟨n.toNat + 1, fibFuel_eq_fib _ n (Nat.lt_succ_self _)⟩

/-- Claim C9: for every integer `n` with `n < 2` — every negative `n`
included — `fib` returns `n` itself unchanged. -/
theorem fib_lt_two (n : Int) (h : n < 2) : fib n = n := by
  rw [fib_def]
  simp [h]

/-- Instance of `fib_lt_two` at the negative input `-5`: it is echoed back. -/
theorem fib_lt_two_witness : fib (-5) = -5 :=
  fib_lt_two (-5) (by norm_num)

/-- Claim C10: the fibonacci endpoint with the `n` query parameter absent
defaults it to `10`, so the call computes `fib 10` (which is `55`). -/
theorem endpoint_default_ten :
    fibonacciEndpoint none = fib 10 ∧ fibonacciEndpoint none = 55 :=
  ⟨rfl, fib_ten⟩
